import Mathlib

/-!
Shallow embedding of the spaced-repetition / adaptive-review engine of the
`yuski31/apis` repository, and proofs of the specified properties.

JavaScript numbers are modelled as rationals (ℚ); `Math.round` is modelled
exactly (round half toward positive infinity); `Math.exp` appears only inside
the retention predictor and is modelled as an explicit function parameter,
since every property proved here holds for an arbitrary such function.

Sources embedded:
- `calculateSM2` from
  src/japanese-learning-platform/src/lib/database/functions/srs.ts
- `SM2Algorithm.calculateNextReview`, `RetentionPredictor`, `ItemSelector`,
  `DifficultyAdjuster` and `LearningEngineCoordinator.initializeStudySession`
  from the engine implementation code in src/ins/FINAL_COMPLETION_SUMMARY.md
-/

namespace Apis

/-- JavaScript `Math.round`: rounds half toward positive infinity,
`Math.round x = ⌊x + 1/2⌋` for every real argument. -/
def jsRound (x : ℚ) : ℤ := ⌊x + 1/2⌋

/-- Result record of both SM-2 computations: the returned
`interval`, `repetitions` and `easeFactor` (all JS numbers, modelled as ℚ).
The engine-document version also returns a `nextReviewDate`, a wall-clock
date derived from `interval`; wall-clock time is outside this model. -/
structure SM2Result where
  interval : ℚ
  repetitions : ℚ
  easeFactor : ℚ
deriving DecidableEq, Repr

/-- `calculateSM2` from srs.ts, lines 173-218.  The source first computes
`newEaseFactor` (clamped below at 1.3) and then, in the 3-and-more
repetitions branch, computes `Math.round(interval * newEaseFactor)` with the
already-updated ease factor.  Argument order is that of the source:
`(quality, repetitions, easeFactor, interval)`.  There is no input
validation in this function. -/
def calculateSM2 (quality repetitions easeFactor interval : ℚ) : SM2Result :=
  let newEaseFactor0 :=
    easeFactor + (1/10 - (5 - quality) * (8/100 + (5 - quality) * (2/100)))
  let newEaseFactor := if newEaseFactor0 < 13/10 then 13/10 else newEaseFactor0
  let rp : ℚ × ℚ :=
    if quality < 3 then
      (0, 1)
    else
      let newRepetitions := repetitions + 1
      (newRepetitions,
        if newRepetitions = 1 then 1
        else if newRepetitions = 2 then 6
        else (jsRound (interval * newEaseFactor) : ℚ))
  { interval := rp.2, repetitions := rp.1, easeFactor := newEaseFactor }

namespace SM2Algorithm

/-- `SM2Algorithm.calculateNextReview` from the engine document.  It first
validates `quality` (throwing for out-of-range values, modelled by
`Except.error`), computes the new interval in the 3-and-more repetitions
branch as `Math.round(previousInterval * easeFactor)` with the OLD ease
factor, and only afterwards updates the ease factor (clamped below at 1.3).
Argument order is that of the source:
`(quality, repetitions, previousInterval, easeFactor)`. -/
def calculateNextReview (quality repetitions previousInterval easeFactor : ℚ) :
    Except String SM2Result :=
  if quality < 0 ∨ quality > 5 then
    Except.error ("Quality must be between 0 and 5")
  else
    let rp : ℚ × ℚ :=
      if quality < 3 then
        (0, 1)
      else
        let newRepetitions := repetitions + 1
        (newRepetitions,
          if newRepetitions = 1 then 1
          else if newRepetitions = 2 then 6
          else (jsRound (previousInterval * easeFactor) : ℚ))
    let newEaseFactor0 :=
      easeFactor + (1/10 - (5 - quality) * (8/100 + (5 - quality) * (2/100)))
    let newEaseFactor := if newEaseFactor0 < 13/10 then 13/10 else newEaseFactor0
    Except.ok { interval := rp.2, repetitions := rp.1, easeFactor := newEaseFactor }

end SM2Algorithm

/-- Folding `calculateSM2` over a list of quality scores, threading the
returned state, models a sequence of reviews of one item. -/
def applyReviews (qs : List ℚ) (s : SM2Result) : SM2Result :=
  qs.foldl (fun st q => calculateSM2 q st.repetitions st.easeFactor st.interval) s

/-- Common shorthand for the ease-factor update both implementations share:
`easeFactor + (0.1 - (5 - quality) * (0.08 + (5 - quality) * 0.02))`,
clamped below at 1.3. -/
def sm2NewEaseFactor (quality easeFactor : ℚ) : ℚ :=
  let n0 := easeFactor + (1/10 - (5 - quality) * (8/100 + (5 - quality) * (2/100)))
  if n0 < 13/10 then 13/10 else n0

/-- Feature record passed to the retention predictor (the `itemData`
object of the source), plus the `currentInterval` field read by
`recommendReviewTiming`. -/
structure ItemData where
  timeSinceLastReview : ℚ
  easeFactor : ℚ
  userHistoricalAccuracy : ℚ
  contentDifficulty : ℚ
  dailyLoadFactor : ℚ
  currentInterval : ℚ
deriving DecidableEq, Repr

namespace RetentionPredictor

/-- The linear combination of the five static model weights with the
features, as in `predictRecallProbability`. -/
def logitOf (d : ItemData) : ℚ :=
  (-(5/100)) * d.timeSinceLastReview
    + (3/10) * d.easeFactor
    + (4/10) * d.userHistoricalAccuracy
    + (-(2/10)) * d.contentDifficulty
    + (-(1/10)) * d.dailyLoadFactor

/-- `RetentionPredictor.predictRecallProbability`: sigmoid of the linear
combination, `1 / (1 + Math.exp(-logit))`.  `Math.exp` is modelled as the
explicit function parameter `mexp`; every property proved below holds for
an arbitrary such function. -/
def predictRecallProbability (mexp : ℚ → ℚ) (d : ItemData) : ℚ :=
  1 / (1 + mexp (-(logitOf d)))

/-- The bisection loop of `recommendReviewTiming`, modelled with explicit
fuel: fuel `n+1` performs one iteration on the current bracket and recurses
with fuel `n`; fuel 0 returns the `days` value carried from the previous
iteration, matching the source loop, which exits when `iterations` reaches
`maxIterations` and returns the last computed midpoint. -/
def recommendLoop (mexp : ℚ → ℚ) (d : ItemData) (targetRetention : ℚ) :
    ℕ → ℚ → ℚ → ℚ → ℚ
  | 0, _, _, days => days
  | fuel + 1, low, high, _ =>
    let days := (low + high) / 2
    let recallProb :=
      predictRecallProbability mexp { d with timeSinceLastReview := days }
    if |recallProb - targetRetention| < 1/100 then days
    else if recallProb > targetRetention then
      recommendLoop mexp d targetRetention fuel days high days
    else
      recommendLoop mexp d targetRetention fuel low days days

/-- `RetentionPredictor.recommendReviewTiming`: 20-iteration bisection over
[0.1, 365], rounded to whole days.  The initial `days` value is
`itemData.currentInterval || 1` (JS: falsy 0 becomes 1); the loop always
runs at least one iteration, so this initial value is overwritten before it
can be returned. -/
def recommendReviewTiming (mexp : ℚ → ℚ) (d : ItemData) (targetRetention : ℚ) : ℤ :=
  let days0 := if d.currentInterval = 0 then 1 else d.currentInterval
  jsRound (recommendLoop mexp d targetRetention 20 (1/10) 365 days0)

/-- Instrumented view of one-or-more bisection iterations: `days` is the
value the loop would return, `iters` the number of iterations executed,
`converged` whether the loop exited through the convergence break, and
`low`, `high` the bracket over which the final midpoint was computed.
Fuel counts the iterations still allowed AFTER the current one. -/
structure TimingLoopResult where
  days : ℚ
  iters : ℕ
  converged : Bool
  low : ℚ
  high : ℚ
deriving DecidableEq, Repr

/-- Instrumented bisection: performs one iteration on the bracket and, if
fuel remains and the convergence test fails, recurses on the halved
bracket. -/
def recommendLoopFull (mexp : ℚ → ℚ) (d : ItemData) (targetRetention : ℚ) :
    ℕ → ℚ → ℚ → TimingLoopResult
  | fuel, low, high =>
    let days := (low + high) / 2
    let recallProb :=
      predictRecallProbability mexp { d with timeSinceLastReview := days }
    if |recallProb - targetRetention| < 1/100 then
      { days := days, iters := 1, converged := true, low := low, high := high }
    else
      match fuel with
      | 0 => { days := days, iters := 1, converged := false, low := low, high := high }
      | fuel' + 1 =>
        let r :=
          if recallProb > targetRetention then
            recommendLoopFull mexp d targetRetention fuel' days high
          else
            recommendLoopFull mexp d targetRetention fuel' low days
        { r with iters := r.iters + 1 }

/-- A concrete feature record used by the evaluation below. -/
def sampleItemData : ItemData :=
  { timeSinceLastReview := 10
    easeFactor := 5/2
    userHistoricalAccuracy := 4/5
    contentDifficulty := 1/2
    dailyLoadFactor := 1/5
    currentInterval := 10 }

end RetentionPredictor

/-- Per-item record attached to a candidate, as read by the item selector.
`daysUntilDue` models the source expression
`(item.nextReviewDate - new Date()) / (1000*60*60*24)`, with the current
wall-clock time folded into the field.  `curriculumPriority` is optional in
the source (`item.curriculumPriority || 50`). -/
structure CandidateItem where
  id : ℕ
  contentType : String
  isDueForReview : Bool
  isNew : Bool
  daysUntilDue : ℚ
  curriculumPriority : Option ℚ
deriving DecidableEq, Repr

/-- Per-item performance record (`userData.itemPerformance[item.id]`). -/
structure ItemPerformance where
  accuracy : ℚ
deriving DecidableEq, Repr

/-- The user learning data the selector reads
(`getUserLearningData`); `itemPerformance` is the id-keyed map of the
source, modelled as a function to `Option`. -/
structure UserLearningData where
  characterWeakness : ℚ
  wordWeakness : ℚ
  grammarWeakness : ℚ
  preferNovelty : Bool
  recentItems : List CandidateItem
  itemPerformance : ℕ → Option ItemPerformance

namespace ItemSelector

/-- `ItemSelector.calculateWeaknessScore`: the per-category baseline
weakness (unknown content types give 0, as does the JS `|| 0` fallback),
raised by `(1 - accuracy) * 30` and capped at 100 when an item-specific
performance record exists. -/
def calculateWeaknessScore (item : CandidateItem) (u : UserLearningData) : ℚ :=
  let baseWeakness :=
    if item.contentType = ("character") then u.characterWeakness
    else if item.contentType = ("word") then u.wordWeakness
    else if item.contentType = ("grammar") then u.grammarWeakness
    else 0
  match u.itemPerformance item.id with
  | some perf => min 100 (baseWeakness + (1 - perf.accuracy) * 30)
  | none => baseWeakness

/-- `ItemSelector.calculateVarietyScore`:
`max(0, 30 - 10 * countOfSameTypeInRecentItems)`. -/
def calculateVarietyScore (item : CandidateItem) (recentItems : List CandidateItem) : ℚ :=
  let similarCount :=
    (recentItems.filter (fun r => r.contentType = item.contentType)).length
  max 0 (30 - (similarCount : ℚ) * 10)

/-- `ItemSelector.calculateItemPriority`: weighted sum of due-ness,
weakness, curriculum priority, variety and (if the user prefers novelty)
novelty.  The weights are the `priorityFactors` of the constructor.
JS `item.curriculumPriority || 50` maps a missing or zero priority
to 50. -/
def calculateItemPriority (item : CandidateItem) (u : UserLearningData) : ℚ :=
  let dueScore :=
    if item.isDueForReview then (3/10) * 100
    else (3/10) * max 0 (50 - item.daysUntilDue)
  let weaknessScore := (25/100) * calculateWeaknessScore item u
  let curriculumScore :=
    (2/10) * (match item.curriculumPriority with
      | some c => if c = 0 then 50 else c
      | none => 50)
  let varietyScore := (15/100) * calculateVarietyScore item u.recentItems
  let noveltyScore :=
    if u.preferNovelty then (1/10) * (if item.isNew then 20 else 0) else 0
  dueScore + weaknessScore + curriculumScore + varietyScore + noveltyScore

/-- A candidate together with its computed `priorityScore`. -/
structure ScoredItem where
  item : CandidateItem
  priorityScore : ℚ
deriving DecidableEq, Repr

/-- Descending order on scored items, the order produced by the source
comparator `(a, b) => b.priorityScore - a.priorityScore`. -/
def scoreDesc (a b : ScoredItem) : Prop := b.priorityScore ≤ a.priorityScore

instance : DecidableRel scoreDesc := fun a b =>
  inferInstanceAs (Decidable (b.priorityScore ≤ a.priorityScore))

instance : IsTotal ScoredItem scoreDesc :=
  ⟨fun a b => le_total b.priorityScore a.priorityScore⟩

instance : IsTrans ScoredItem scoreDesc :=
  ⟨fun _ _ _ h1 h2 => le_trans h2 h1⟩

/-- `ItemSelector.selectStudyItems`, with the database reads
(`getUserLearningData`, `getCandidateItems`) supplied as arguments: score
every candidate, sort descending by priority score (JS `Array.sort` is a
stable sorted permutation; modelled by a stable sort under `scoreDesc`),
and return the first `itemCount` items. -/
def selectStudyItems (u : UserLearningData) (candidateItems : List CandidateItem)
    (itemCount : ℕ) : List ScoredItem :=
  let scoredItems := candidateItems.map
    (fun it => { item := it, priorityScore := calculateItemPriority it u })
  let sorted := scoredItems.insertionSort scoreDesc
  sorted.take itemCount

end ItemSelector

/-- Minimal study-session record returned by
`LearningEngineCoordinator.initializeStudySession`: the selected items
(metadata enrichment and the session-record database row are external
concerns) together with the user state it echoes back. -/
structure StudySession where
  items : List ItemSelector.ScoredItem
  userState : UserLearningData

namespace LearningEngineCoordinator

/-- `LearningEngineCoordinator.initializeStudySession`, with the external
reads supplied as arguments.  The item count is
`sessionOptions.itemCount || 20` (a missing or zero count becomes 20).
The function unconditionally builds and returns a session; there is no
emptiness check on the candidate pool and no error path anywhere in its
body. -/
def initializeStudySession (u : UserLearningData)
    (candidateItems : List CandidateItem) (itemCount : Option ℕ) : StudySession :=
  let count := match itemCount with
    | some n => if n = 0 then 20 else n
    | none => 20
  { items := ItemSelector.selectStudyItems u candidateItems count
    userState := u }

end LearningEngineCoordinator

/-- A fixed user state used by the concrete evaluations below (the
constants of the source stub `getUserLearningData`). -/
def sampleUser : UserLearningData :=
  { characterWeakness := 25
    wordWeakness := 15
    grammarWeakness := 30
    preferNovelty := true
    recentItems := []
    itemPerformance := fun _ => none }

/-- Performance sample handed to the difficulty adjuster
(`performanceData`).  `previousAverageTime` is optional in the source
(`if (!previousAverageTime) return 0`, which also catches a zero value). -/
structure PerformanceData where
  accuracy : ℚ
  responseTime : ℚ
  attempts : ℕ
  previousAverageTime : Option ℚ
deriving DecidableEq, Repr

/-- The per-item fields the adjuster reads (`item.averageTime`). -/
structure LearningItem where
  averageTime : ℚ
deriving DecidableEq, Repr

namespace DifficultyAdjuster

/-- `DifficultyAdjuster.calculateDifficultyIncrease`: base increase 0.10,
plus 0.05 for accuracy above 0.95, plus 0.05 for a response time below
0.7 times the historical item average, capped at 0.30. -/
def calculateDifficultyIncrease (item : LearningItem) (pd : PerformanceData) : ℚ :=
  let increase : ℚ := 1/10
  let increase := if pd.accuracy > 95/100 then increase + 5/100 else increase
  let increase :=
    if pd.responseTime < item.averageTime * (7/10) then increase + 5/100 else increase
  min (3/10) increase

/-- `DifficultyAdjuster.calculateDifficultyDecrease`: base decrease 0.15,
plus 0.10 for accuracy below 0.3, plus 0.10 for a response time above
1.5 times the historical item average, capped at 0.40 (returned as a
positive magnitude by the source). -/
def calculateDifficultyDecrease (item : LearningItem) (pd : PerformanceData) : ℚ :=
  let decrease : ℚ := 15/100
  let decrease := if pd.accuracy < 3/10 then decrease + 1/10 else decrease
  let decrease :=
    if pd.responseTime > item.averageTime * (3/2) then decrease + 1/10 else decrease
  min (4/10) decrease

/-- `DifficultyAdjuster.calculateTimePressureAdjustment`: -0.1 when the
response was more than twice the previous average, +0.1 when it was less
than half, otherwise 0; a missing (or zero, JS-falsy) previous average
gives 0. -/
def calculateTimePressureAdjustment (pd : PerformanceData) : ℚ :=
  match pd.previousAverageTime with
  | none => 0
  | some prev =>
      if prev = 0 then 0
      else
        let ratio := pd.responseTime / prev
        if ratio > 2 then -(1/10)
        else if ratio < 1/2 then 1/10
        else 0

/-- The adjustment fields `adjustItemDifficulty` attaches to the item:
an increase is computed only for accuracy at least 0.9, a decrease only
for accuracy at most 0.5, and a time-pressure signal only after the first
attempt. -/
structure DifficultyAdjustments where
  difficultyIncrease : Option ℚ
  difficultyDecrease : Option ℚ
  timePressure : Option ℚ
deriving DecidableEq, Repr

/-- `DifficultyAdjuster.adjustItemDifficulty`, restricted to the
adjustment fields it computes (the source spreads them onto the item
together with a wall-clock `lastAdjusted` stamp, which is outside this
model).  The thresholds are the `performanceThresholds` of the
constructor: easy 0.9, hard 0.5. -/
def adjustItemDifficulty (item : LearningItem) (pd : PerformanceData) :
    DifficultyAdjustments :=
  { difficultyIncrease :=
      if pd.accuracy ≥ 9/10 then some (calculateDifficultyIncrease item pd) else none
    difficultyDecrease :=
      if pd.accuracy ≥ 9/10 then none
      else if pd.accuracy ≤ 1/2 then some (calculateDifficultyDecrease item pd)
      else none
    timePressure :=
      if pd.attempts > 1 then some (calculateTimePressureAdjustment pd) else none }

/-- Session-level sample used by `adjustSessionDifficulty`. -/
structure SessionSample where
  accuracy : ℚ
  responseTime : ℚ
deriving DecidableEq, Repr

/-- Mean accuracy of a list of samples, as computed by the source
(`reduce(...) / recentPerformance.length`). -/
def averageAccuracyOf (recentPerformance : List SessionSample) : ℚ :=
  ((recentPerformance.map (fun p => p.accuracy)).sum) / (recentPerformance.length : ℚ)

/-- `DifficultyAdjuster.adjustSessionDifficulty`: 1.0 for an empty sample
list, otherwise a multiplicative factor 1.1 / 0.9 / 1.0 chosen from the
mean accuracy, clamped to [0.7, 1.3].  The source also computes the mean
response time but never uses it. -/
def adjustSessionDifficulty (recentPerformance : List SessionSample) : ℚ :=
  if recentPerformance.length = 0 then 1
  else
    let averageAccuracy := averageAccuracyOf recentPerformance
    let adjustment : ℚ := 1
    let adjustment :=
      if averageAccuracy > 9/10 then adjustment * (11/10)
      else if averageAccuracy < 6/10 then adjustment * (9/10)
      else adjustment
    max (7/10) (min (13/10) adjustment)

end DifficultyAdjuster

theorem calculateSM2_easeFactor_eq (q reps ef i : ℚ) :
    (calculateSM2 q reps ef i).easeFactor = sm2NewEaseFactor q ef := rfl

theorem calculateSM2_repetitions_eq (q reps ef i : ℚ) :
    (calculateSM2 q reps ef i).repetitions = if q < 3 then 0 else reps + 1 := by
  by_cases h : q < 3 <;> simp [calculateSM2, h]

theorem calculateSM2_interval_eq (q reps ef i : ℚ) :
    (calculateSM2 q reps ef i).interval =
      if q < 3 then 1
      else if reps + 1 = 1 then 1
      else if reps + 1 = 2 then 6
      else (jsRound (i * sm2NewEaseFactor q ef) : ℚ) := by
  by_cases h : q < 3
  · simp [calculateSM2, h]
  · by_cases h1 : reps + 1 = 1 <;> by_cases h2 : reps + 1 = 2 <;>
      simp [calculateSM2, sm2NewEaseFactor, h, h1, h2]

theorem calculateSM2_eq (q reps ef i : ℚ) :
    calculateSM2 q reps ef i =
      { interval :=
          if q < 3 then 1
          else if reps + 1 = 1 then 1
          else if reps + 1 = 2 then 6
          else (jsRound (i * sm2NewEaseFactor q ef) : ℚ)
        repetitions := if q < 3 then 0 else reps + 1
        easeFactor := sm2NewEaseFactor q ef } := by
  by_cases h : q < 3
  · simp [calculateSM2, sm2NewEaseFactor, h]
  · by_cases h1 : reps + 1 = 1 <;> by_cases h2 : reps + 1 = 2 <;>
      simp [calculateSM2, sm2NewEaseFactor, h, h1, h2]

theorem calculateNextReview_eq (q reps pi ef : ℚ) (h0 : 0 ≤ q) (h5 : q ≤ 5) :
    SM2Algorithm.calculateNextReview q reps pi ef =
      Except.ok
        { interval :=
            if q < 3 then 1
            else if reps + 1 = 1 then 1
            else if reps + 1 = 2 then 6
            else (jsRound (pi * ef) : ℚ)
          repetitions := if q < 3 then 0 else reps + 1
          easeFactor := sm2NewEaseFactor q ef } := by
  have hv : ¬(q < 0 ∨ q > 5) := by
    rw [not_or]
    exact ⟨not_lt.mpr h0, not_lt.mpr h5⟩
  by_cases h : q < 3
  · simp [SM2Algorithm.calculateNextReview, hv, h, sm2NewEaseFactor]
  · by_cases h1 : reps + 1 = 1 <;> by_cases h2 : reps + 1 = 2 <;>
      simp [SM2Algorithm.calculateNextReview, hv, h, h1, h2, sm2NewEaseFactor]

/-- The shared ease-factor update is clamped below at 13/10. -/
theorem sm2NewEaseFactor_floor (q ef : ℚ) : 13/10 ≤ sm2NewEaseFactor q ef := by
  simp only [sm2NewEaseFactor]
  split_ifs with h
  · exact le_refl _
  · exact le_of_not_lt h

/-- At quality 4 the ease-factor delta vanishes, so the update is the
identity on ease factors that already satisfy the floor. -/
theorem sm2NewEaseFactor_four (ef : ℚ) (hef : 13/10 ≤ ef) :
    sm2NewEaseFactor 4 ef = ef := by
  have : ef + (1/10 - (5 - (4:ℚ)) * (8/100 + (5 - (4:ℚ)) * (2/100))) = ef := by ring
  rw [sm2NewEaseFactor, this, if_neg (not_lt.mpr hef)]

/-- C1 counterexample: at quality 5, repetitions 2, easeFactor 2.5,
interval 10 (all within the ranges assumed by the claim), `calculateSM2`
returns interval 26 (it multiplies by the updated ease factor 2.6) while
`SM2Algorithm.calculateNextReview` returns interval 25 (it multiplies by the
old ease factor 2.5); repetitions and ease factor agree. -/
theorem sm2_implementations_differ :
    calculateSM2 5 2 (5/2) 10 = { interval := 26, repetitions := 3, easeFactor := 13/5 }
    ∧ SM2Algorithm.calculateNextReview 5 2 10 (5/2)
        = Except.ok { interval := 25, repetitions := 3, easeFactor := 13/5 } := by
  constructor
  · norm_num [calculateSM2, jsRound]
  · norm_num [SM2Algorithm.calculateNextReview, jsRound]

/-- C1 (amended): for quality in [0,5] and easeFactor at least 1.3, the two
SM-2 implementations return the same repetitions and the same ease factor;
they return the same full result whenever quality is below 3, or the prior
repetition count is 0 or 1, or quality equals 4; in the remaining branch
(quality at least 3, new repetition count at least 3) `calculateNextReview`
computes `round(interval * easeFactor)` with the pre-update ease factor,
while `calculateSM2` computes `round(interval * newEaseFactor)` with the
post-update ease factor, which differ in general. -/
theorem sm2_engine_agreement (q reps ef i : ℚ)
    (h0 : 0 ≤ q) (h5 : q ≤ 5) (hef : 13/10 ≤ ef) :
    ∃ r, SM2Algorithm.calculateNextReview q reps i ef = Except.ok r
      ∧ r.repetitions = (calculateSM2 q reps ef i).repetitions
      ∧ r.easeFactor = (calculateSM2 q reps ef i).easeFactor
      ∧ ((q < 3 ∨ reps = 0 ∨ reps = 1 ∨ q = 4) → r = calculateSM2 q reps ef i)
      ∧ (3 ≤ q → reps ≠ 0 → reps ≠ 1 →
          r.interval = (jsRound (i * ef) : ℚ)
          ∧ (calculateSM2 q reps ef i).interval
              = (jsRound (i * (calculateSM2 q reps ef i).easeFactor) : ℚ)) := by
  refine ⟨_, calculateNextReview_eq q reps i ef h0 h5, ?_, ?_, ?_, ?_⟩
  · rw [calculateSM2_repetitions_eq]
  · rw [calculateSM2_easeFactor_eq]
  · rintro (hq | hr | hr | hq)
    · rw [calculateSM2_eq]
      simp [hq]
    · rw [calculateSM2_eq]
      simp [hr]
    · rw [calculateSM2_eq]
      norm_num [hr]
    · rw [calculateSM2_eq]
      subst hq
      rw [sm2NewEaseFactor_four ef hef]
  · intro h3 hr0 hr1
    have hq : ¬ q < 3 := not_lt.mpr h3
    have h1 : reps + 1 ≠ 1 := fun h => hr0 (by linarith [congrArg id h])
    have h2 : reps + 1 ≠ 2 := fun h => hr1 (by linarith [congrArg id h])
    constructor
    · simp [hq, h1, h2]
    · rw [calculateSM2_interval_eq, calculateSM2_easeFactor_eq]
      simp [hq, h1, h2]

/-- C1 witness: the amended agreement theorem instantiated at quality 5,
repetitions 2, easeFactor 2.5, interval 10. -/
theorem sm2_engine_agreement_witness :
    (0:ℚ) ≤ 5 ∧ (5:ℚ) ≤ 5 ∧ (13:ℚ)/10 ≤ 5/2
    ∧ ∃ r, SM2Algorithm.calculateNextReview 5 2 10 (5/2) = Except.ok r
      ∧ r.repetitions = (calculateSM2 5 2 (5/2) 10).repetitions
      ∧ r.easeFactor = (calculateSM2 5 2 (5/2) 10).easeFactor
      ∧ (((5:ℚ) < 3 ∨ (2:ℚ) = 0 ∨ (2:ℚ) = 1 ∨ (5:ℚ) = 4) → r = calculateSM2 5 2 (5/2) 10)
      ∧ ((3:ℚ) ≤ 5 → (2:ℚ) ≠ 0 → (2:ℚ) ≠ 1 →
          r.interval = (jsRound (10 * (5/2)) : ℚ)
          ∧ (calculateSM2 5 2 (5/2) 10).interval
              = (jsRound (10 * (calculateSM2 5 2 (5/2) 10).easeFactor) : ℚ)) :=
  ⟨by norm_num, by norm_num, by norm_num,
    sm2_engine_agreement 5 2 (5/2) 10 (by norm_num) (by norm_num) (by norm_num)⟩

/-- C2 counterexample: `calculateSM2` performs no input validation: at the
out-of-range quality 6 it returns an ordinary result (interval 1,
repetitions 1, easeFactor 2.66) instead of failing. -/
theorem calculateSM2_no_validation :
    calculateSM2 6 0 (5/2) 0
      = { interval := 1, repetitions := 1, easeFactor := 133/50 } := by
  norm_num [calculateSM2, jsRound]

/-- C2 (amended): `SM2Algorithm.calculateNextReview` fails exactly when
quality is outside [0,5]; `calculateSM2` performs no validation and returns
an ordinary result for every quality (its return type has no error channel,
and the counterexample evaluates it at quality 6). -/
theorem calculateNextReview_invalid_iff (q reps pi ef : ℚ) :
    SM2Algorithm.calculateNextReview q reps pi ef
        = Except.error ("Quality must be between 0 and 5")
      ↔ (q < 0 ∨ q > 5) := by
  by_cases h : q < 0 ∨ q > 5
  · simp [SM2Algorithm.calculateNextReview, h]
  · simp [SM2Algorithm.calculateNextReview, h]

/-- C3: any quality below 3 (within the valid range) resets repetitions to 0
and interval to 1, regardless of the prior state, in both implementations. -/
theorem sm2_failure_reset (q reps ef i : ℚ) (h0 : 0 ≤ q) (h3 : q < 3) :
    (calculateSM2 q reps ef i).repetitions = 0
    ∧ (calculateSM2 q reps ef i).interval = 1
    ∧ ∃ r, SM2Algorithm.calculateNextReview q reps i ef = Except.ok r
        ∧ r.repetitions = 0 ∧ r.interval = 1 := by
  refine ⟨?_, ?_, ?_⟩
  · rw [calculateSM2_repetitions_eq, if_pos h3]
  · rw [calculateSM2_interval_eq, if_pos h3]
  · exact ⟨_, calculateNextReview_eq q reps i ef h0 (by linarith), by simp [h3], by simp [h3]⟩

/-- C3 witness: the failure-reset theorem instantiated at quality 2 with
prior repetitions 7, easeFactor 2.5, interval 42. -/
theorem sm2_failure_reset_witness :
    (0:ℚ) ≤ 2 ∧ (2:ℚ) < 3
    ∧ (calculateSM2 2 7 (5/2) 42).repetitions = 0
    ∧ (calculateSM2 2 7 (5/2) 42).interval = 1
    ∧ ∃ r, SM2Algorithm.calculateNextReview 2 7 42 (5/2) = Except.ok r
        ∧ r.repetitions = 0 ∧ r.interval = 1 :=
  ⟨by norm_num, by norm_num,
    sm2_failure_reset 2 7 (5/2) 42 (by norm_num) (by norm_num)⟩

/-- C4: the ease factor returned by either implementation is never below
1.3, and folding any sequence of reviews over `calculateSM2` from a state
with ease factor at least 1.3 keeps the ease factor at least 1.3. -/
theorem sm2_ease_factor_floor (q reps ef i : ℚ) (s : SM2Result) (qs : List ℚ) :
    13/10 ≤ (calculateSM2 q reps ef i).easeFactor
    ∧ (SM2Algorithm.calculateNextReview q reps i ef = Except.ok s →
        13/10 ≤ s.easeFactor)
    ∧ (13/10 ≤ ef →
        13/10 ≤ (applyReviews qs { interval := i, repetitions := reps, easeFactor := ef }).easeFactor) := by
  refine ⟨?_, ?_, ?_⟩
  · rw [calculateSM2_easeFactor_eq]
    exact sm2NewEaseFactor_floor q ef
  · intro h
    by_cases hv : q < 0 ∨ q > 5
    · simp [SM2Algorithm.calculateNextReview, hv] at h
    · have h0 : 0 ≤ q := le_of_not_lt (fun hc => hv (Or.inl hc))
      have h5 : q ≤ 5 := le_of_not_lt (fun hc => hv (Or.inr hc))
      rw [calculateNextReview_eq q reps i ef h0 h5] at h
      cases h
      exact sm2NewEaseFactor_floor q ef
  · intro hef
    have key : ∀ (l : List ℚ) (st : SM2Result), 13/10 ≤ st.easeFactor →
        13/10 ≤ (applyReviews l st).easeFactor := by
      intro l
      induction l with
      | nil => intro st h; exact h
      | cons a t ih =>
          intro st _
          have : applyReviews (a :: t) st
              = applyReviews t (calculateSM2 a st.repetitions st.easeFactor st.interval) := rfl
          rw [this]
          exact ih _ (by rw [calculateSM2_easeFactor_eq]; exact sm2NewEaseFactor_floor _ _)
    exact key qs _ hef

/-- C4 witness: the floor theorem instantiated at quality 0 (the harshest
score), repetitions 0, easeFactor 1.3, interval 1, review sequence [0, 5]. -/
theorem sm2_ease_factor_floor_witness :
    13/10 ≤ (calculateSM2 0 0 (13/10) 1).easeFactor
    ∧ (SM2Algorithm.calculateNextReview 0 0 1 (13/10)
          = Except.ok { interval := 1, repetitions := 0, easeFactor := 13/10 } →
        13/10 ≤ (SM2Result.mk 1 0 (13/10)).easeFactor)
    ∧ ((13:ℚ)/10 ≤ 13/10 →
        13/10 ≤ (applyReviews [0, 5] { interval := 1, repetitions := 0, easeFactor := 13/10 }).easeFactor) :=
  sm2_ease_factor_floor 0 0 (13/10) 1 { interval := 1, repetitions := 0, easeFactor := 13/10 } [0, 5]

/-- C5: for fixed repetitions at least 2, nonnegative interval and
easeFactor at least 1.3, the interval returned by `calculateSM2` is
non-decreasing in quality over 3, 4, 5. -/
theorem sm2_monotonicity (reps i ef : ℚ)
    (hreps : 2 ≤ reps) (hi : 0 ≤ i) (hef : 13/10 ≤ ef) :
    (calculateSM2 3 reps ef i).interval ≤ (calculateSM2 4 reps ef i).interval
    ∧ (calculateSM2 4 reps ef i).interval ≤ (calculateSM2 5 reps ef i).interval := by
  have h1 : reps + 1 ≠ 1 := by intro h; nlinarith [h]
  have h2 : reps + 1 ≠ 2 := by intro h; nlinarith [h]
  have hiv : ∀ q : ℚ, ¬ q < 3 → (calculateSM2 q reps ef i).interval
      = (jsRound (i * sm2NewEaseFactor q ef) : ℚ) := by
    intro q hq
    rw [calculateSM2_interval_eq]
    simp [hq, h1, h2]
  have e3 : sm2NewEaseFactor 3 ef ≤ sm2NewEaseFactor 4 ef := by
    rw [sm2NewEaseFactor_four ef hef, sm2NewEaseFactor]
    have : ef + (1/10 - (5 - (3:ℚ)) * (8/100 + (5 - (3:ℚ)) * (2/100))) = ef - 14/100 := by
      ring
    rw [this]
    split_ifs with h
    · exact hef
    · linarith
  have e4 : sm2NewEaseFactor 4 ef ≤ sm2NewEaseFactor 5 ef := by
    rw [sm2NewEaseFactor_four ef hef, sm2NewEaseFactor]
    have : ef + (1/10 - (5 - (5:ℚ)) * (8/100 + (5 - (5:ℚ)) * (2/100))) = ef + 1/10 := by
      ring
    rw [this]
    split_ifs with h
    · linarith
    · linarith
  have mono : ∀ a b : ℚ, a ≤ b → ((jsRound a : ℤ) : ℚ) ≤ ((jsRound b : ℤ) : ℚ) := by
    intro a b hab
    have : jsRound a ≤ jsRound b := Int.floor_le_floor (by linarith)
    exact_mod_cast this
  constructor
  · rw [hiv 3 (by norm_num), hiv 4 (by norm_num)]
    exact mono _ _ (mul_le_mul_of_nonneg_left e3 hi)
  · rw [hiv 4 (by norm_num), hiv 5 (by norm_num)]
    exact mono _ _ (mul_le_mul_of_nonneg_left e4 hi)

/-- C5 witness: monotonicity instantiated at repetitions 2, interval 10,
easeFactor 2.5 (resulting intervals 24, 25, 26). -/
theorem sm2_monotonicity_witness :
    (2:ℚ) ≤ 2 ∧ (0:ℚ) ≤ 10 ∧ (13:ℚ)/10 ≤ 5/2
    ∧ ((calculateSM2 3 2 (5/2) 10).interval ≤ (calculateSM2 4 2 (5/2) 10).interval
        ∧ (calculateSM2 4 2 (5/2) 10).interval ≤ (calculateSM2 5 2 (5/2) 10).interval) :=
  ⟨by norm_num, by norm_num, by norm_num,
    sm2_monotonicity 2 10 (5/2) (by norm_num) (by norm_num) (by norm_num)⟩


namespace RetentionPredictor

/-- The instrumented loop computes the same value as the source loop run
with one more unit of fuel (the fuel of `recommendLoopFull` counts
remaining iterations after the current one). -/
theorem recommendLoopFull_days (mexp : ℚ → ℚ) (d : ItemData) (t : ℚ) :
    ∀ (fuel : ℕ) (low high d0 : ℚ),
      recommendLoop mexp d t (fuel + 1) low high d0
        = (recommendLoopFull mexp d t fuel low high).days := by
  intro fuel
  induction fuel with
  | zero =>
      intro low high d0
      rw [recommendLoop, recommendLoopFull]
      split_ifs with h1 h2 <;> rfl
  | succ n ih =>
      intro low high d0
      rw [recommendLoop, recommendLoopFull]
      dsimp only
      split_ifs with h1 h2
      · rfl
      · rw [ih]
      · rw [ih]

/-- The instrumented loop executes at most `fuel + 1` iterations. -/
theorem recommendLoopFull_iters (mexp : ℚ → ℚ) (d : ItemData) (t : ℚ) :
    ∀ (fuel : ℕ) (low high : ℚ),
      (recommendLoopFull mexp d t fuel low high).iters ≤ fuel + 1 := by
  intro fuel
  induction fuel with
  | zero =>
      intro low high
      rw [recommendLoopFull]
      split_ifs <;> simp
  | succ n ih =>
      intro low high
      rw [recommendLoopFull]
      dsimp only
      split_ifs with h1 h2
      · simp
      · simpa using Nat.succ_le_succ (ih _ _)
      · simpa using Nat.succ_le_succ (ih _ _)

/-- The value the instrumented loop returns is always the midpoint of the
bracket it reports, and on a converged exit the predicted recall
probability at that midpoint is within 1/100 of the target. -/
theorem recommendLoopFull_exit (mexp : ℚ → ℚ) (d : ItemData) (t : ℚ) :
    ∀ (fuel : ℕ) (low high : ℚ),
      (recommendLoopFull mexp d t fuel low high).days
          = ((recommendLoopFull mexp d t fuel low high).low
              + (recommendLoopFull mexp d t fuel low high).high) / 2
      ∧ ((recommendLoopFull mexp d t fuel low high).converged = true →
          |predictRecallProbability mexp
              { d with timeSinceLastReview := (recommendLoopFull mexp d t fuel low high).days }
            - t| < 1/100) := by
  intro fuel
  induction fuel with
  | zero =>
      intro low high
      rw [recommendLoopFull]
      split_ifs with h1
      · exact ⟨rfl, fun _ => h1⟩
      · exact ⟨rfl, fun h => by simp at h⟩
  | succ n ih =>
      intro low high
      rw [recommendLoopFull]
      dsimp only
      split_ifs with h1 h2
      · exact ⟨rfl, fun _ => h1⟩
      · exact ih _ _
      · exact ih _ _

/-- C6: `recommendReviewTiming` is a total function; it is the rounding of
the value of the instrumented 20-iteration bisection, which executes at
most 20 iterations, returns the midpoint of the bracket of its final
iteration, and, when it exits through the convergence break, that midpoint
has predicted recall probability within 1/100 of the target retention.
This holds for every feature record, every target retention, and every
model of `Math.exp`. -/
theorem recommendReviewTiming_bounded (mexp : ℚ → ℚ) (d : ItemData) (t : ℚ) :
    recommendReviewTiming mexp d t
        = jsRound (recommendLoopFull mexp d t 19 (1/10) 365).days
      ∧ (recommendLoopFull mexp d t 19 (1/10) 365).iters ≤ 20
      ∧ ((recommendLoopFull mexp d t 19 (1/10) 365).converged = true →
          |predictRecallProbability mexp
              { d with timeSinceLastReview := (recommendLoopFull mexp d t 19 (1/10) 365).days }
            - t| < 1/100)
      ∧ (recommendLoopFull mexp d t 19 (1/10) 365).days
          = ((recommendLoopFull mexp d t 19 (1/10) 365).low
              + (recommendLoopFull mexp d t 19 (1/10) 365).high) / 2 := by
  refine ⟨?_, ?_, ?_, ?_⟩
  · rw [recommendReviewTiming]
    rw [recommendLoopFull_days mexp d t 19]
  · exact recommendLoopFull_iters mexp d t 19 (1/10) 365
  · exact (recommendLoopFull_exit mexp d t 19 (1/10) 365).2
  · exact (recommendLoopFull_exit mexp d t 19 (1/10) 365).1

/-- C6 witness: the bounded-bisection theorem instantiated at a concrete
feature record, target retention 0.8, and the constant-one model of
`Math.exp`. -/
theorem recommendReviewTiming_bounded_witness :
    recommendReviewTiming (fun _ => 1) sampleItemData (8/10)
        = jsRound (recommendLoopFull (fun _ => 1) sampleItemData (8/10) 19 (1/10) 365).days
      ∧ (recommendLoopFull (fun _ => 1) sampleItemData (8/10) 19 (1/10) 365).iters ≤ 20
      ∧ ((recommendLoopFull (fun _ => 1) sampleItemData (8/10) 19 (1/10) 365).converged = true →
          |predictRecallProbability (fun _ => 1)
              { sampleItemData with timeSinceLastReview :=
                  (recommendLoopFull (fun _ => 1) sampleItemData (8/10) 19 (1/10) 365).days }
            - 8/10| < 1/100)
      ∧ (recommendLoopFull (fun _ => 1) sampleItemData (8/10) 19 (1/10) 365).days
          = ((recommendLoopFull (fun _ => 1) sampleItemData (8/10) 19 (1/10) 365).low
              + (recommendLoopFull (fun _ => 1) sampleItemData (8/10) 19 (1/10) 365).high) / 2 :=
  recommendReviewTiming_bounded (fun _ => 1) sampleItemData (8/10)

end RetentionPredictor

/-- C8 counterexample: on an empty candidate pool,
`initializeStudySession` does not fail: it returns an ordinary session
whose item list is empty.  No `NoEligibleItems` error exists anywhere in
the source. -/
theorem initializeStudySession_empty_pool :
    (LearningEngineCoordinator.initializeStudySession sampleUser [] (some 20)).items
      = [] := rfl

/-- C8 (amended): `initializeStudySession` never fails: for every user
state and requested count it returns a session, and when the candidate
pool is empty the returned session simply has an empty item list. -/
theorem initializeStudySession_total (u : UserLearningData) (count : Option ℕ)
    (candidateItems : List CandidateItem) :
    (LearningEngineCoordinator.initializeStudySession u [] count).items = []
    ∧ (LearningEngineCoordinator.initializeStudySession u candidateItems count).items
        = ItemSelector.selectStudyItems u candidateItems
            (match count with | some n => if n = 0 then 20 else n | none => 20) := by
  constructor
  · cases count with
    | none => rfl
    | some n =>
        simp [LearningEngineCoordinator.initializeStudySession,
          ItemSelector.selectStudyItems, List.insertionSort]
  · rfl

/-- C9: `selectStudyItems` returns at most `count` items, returns exactly
`count` items precisely when there are at least `count` candidates, and its
output is sorted in non-increasing order of priority score. -/
theorem selectStudyItems_spec (u : UserLearningData)
    (candidateItems : List CandidateItem) (count : ℕ) :
    (ItemSelector.selectStudyItems u candidateItems count).length ≤ count
    ∧ ((ItemSelector.selectStudyItems u candidateItems count).length = count
        ↔ count ≤ candidateItems.length)
    ∧ List.Sorted ItemSelector.scoreDesc
        (ItemSelector.selectStudyItems u candidateItems count) := by
  have hlen : (ItemSelector.selectStudyItems u candidateItems count).length
      = min count candidateItems.length := by
    simp [ItemSelector.selectStudyItems, List.length_take,
      List.length_insertionSort, List.length_map]
  refine ⟨?_, ?_, ?_⟩
  · rw [hlen]; exact min_le_left _ _
  · rw [hlen]; exact min_eq_left_iff
  · exact List.Pairwise.sublist (List.take_sublist _ _)
      (List.sorted_insertionSort ItemSelector.scoreDesc _)

/-- C7: the difficulty deltas are capped: the increase computed by
`calculateDifficultyIncrease` always lies in [0, 0.30] and the decrease
magnitude computed by `calculateDifficultyDecrease` always lies in
[0, 0.40], for every item and every performance sample; hence the signed
delta of the per-item adjustment never leaves [-0.40, +0.30]. -/
theorem difficulty_delta_cap (item : LearningItem) (pd : PerformanceData) :
    0 ≤ DifficultyAdjuster.calculateDifficultyIncrease item pd
    ∧ DifficultyAdjuster.calculateDifficultyIncrease item pd ≤ 3/10
    ∧ 0 ≤ DifficultyAdjuster.calculateDifficultyDecrease item pd
    ∧ DifficultyAdjuster.calculateDifficultyDecrease item pd ≤ 4/10 := by
  refine ⟨?_, ?_, ?_, ?_⟩
  · rw [DifficultyAdjuster.calculateDifficultyIncrease]
    split_ifs <;> norm_num
  · exact min_le_left _ _
  · rw [DifficultyAdjuster.calculateDifficultyDecrease]
    split_ifs <;> norm_num
  · exact min_le_left _ _

/-- C10: `adjustSessionDifficulty` returns 1.1 exactly when the mean
accuracy exceeds 0.9, 0.9 exactly when it is below 0.6, and 1.0 otherwise
(including the empty list); the final clamp to [0.7, 1.3] never changes
the value, so the result is always one of 0.9, 1.0, 1.1. -/
theorem adjustSessionDifficulty_spec (recentPerformance : List DifficultyAdjuster.SessionSample) :
    DifficultyAdjuster.adjustSessionDifficulty recentPerformance
        = (if recentPerformance.length = 0 then 1
            else if DifficultyAdjuster.averageAccuracyOf recentPerformance > 9/10 then 11/10
            else if DifficultyAdjuster.averageAccuracyOf recentPerformance < 6/10 then 9/10
            else 1)
    ∧ (DifficultyAdjuster.adjustSessionDifficulty recentPerformance = 9/10
        ∨ DifficultyAdjuster.adjustSessionDifficulty recentPerformance = 1
        ∨ DifficultyAdjuster.adjustSessionDifficulty recentPerformance = 11/10) := by
  have h : DifficultyAdjuster.adjustSessionDifficulty recentPerformance
      = (if recentPerformance.length = 0 then 1
          else if DifficultyAdjuster.averageAccuracyOf recentPerformance > 9/10 then 11/10
          else if DifficultyAdjuster.averageAccuracyOf recentPerformance < 6/10 then 9/10
          else 1) := by
    by_cases h0 : recentPerformance.length = 0
    · simp [DifficultyAdjuster.adjustSessionDifficulty, h0]
    · by_cases h1 : DifficultyAdjuster.averageAccuracyOf recentPerformance > 9/10
      · simp only [DifficultyAdjuster.adjustSessionDifficulty, h0, h1, if_true, if_false]
        norm_num
      · by_cases h2 : DifficultyAdjuster.averageAccuracyOf recentPerformance < 6/10
        · simp only [DifficultyAdjuster.adjustSessionDifficulty, h0, h1, h2,
            if_true, if_false]
          norm_num
        · simp only [DifficultyAdjuster.adjustSessionDifficulty, h0, h1, h2,
            if_true, if_false]
          norm_num
  refine ⟨h, ?_⟩
  rw [h]
  split_ifs <;> norm_num

end Apis
